import Mathlib

/-!
# Verification of the Redis-Streams messaging engine

Shallow embedding of the producer/consumer messaging core of the
`nest-template-microservice` repository:

* `message-consumer.service.ts` — `subscribe`, `consumeMessages`,
  `processPendingMessages`, `readAndProcessNewMessages`, `processMessage`,
  `getIdempotencyKey`, `moveToDeadLetterQueue`, `unsubscribe`;
* `message-producer.service.ts` — `buildMessageFields`, `publishBatch`.

External effects (Redis calls, handler invocations, sleeps) are modelled as an
explicit trace of events; the responses of the external world (handler
outcomes, idempotency-ledger lookups, DLQ-append success) are supplied by an
environment of oracles, indexed by the attempt counter where the source may
consult them more than once.  Errors are modelled by their message strings
(the source stringifies every caught value via
`error instanceof Error ? error.message : String(error)`).
-/

/-- Observable events of one consumer run, in program order. -/
inductive Ev where
  | handlerInvoke (payload : String)
  | sleep (ms : Nat)
  | xack (stream group messageId : String)
  | ledgerCheck (key : String)
  | ledgerWrite (key : String) (ttlSeconds : Nat)
  | dlqXadd (dlqStream : String) (fields : List String) (ok : Bool)
  | xpending
  | xclaim (messageId : String)
  | xreadgroup
  deriving DecidableEq

/-- Responses of the external world during one `processMessage` run.
`handler r` is the outcome of the handler if invoked at attempt `r`
(`none` = resolves, `some e` = rejects with message `e`); `dupAt r` is what
`isDuplicate` reports if the ledger is consulted at attempt `r`; `dlqOk`
says whether the DLQ `xadd` succeeds; `parse` models `JSON.parse`
(`none` = throws); `now` models `Date.now()`. -/
structure Env where
  parse : String → Option String
  handler : Nat → Option String
  dupAt : Nat → Bool
  dlqOk : Bool
  now : Nat

/-- `options.idempotency` of `MessageConsumerOptions`. -/
structure IdemOptions where
  ttlSeconds : Option Nat := none
  keyField : Option String := none

/-- `MessageConsumerOptions<T>`: the validator acts on the decoded payload. -/
structure MsgOptions where
  validate : Option (String → Bool) := none
  idempotency : Option IdemOptions := none

/-- First index of `k` in `xs`: JS `Array.prototype.indexOf`, with `none`
standing for `-1`. -/
def jsIndexOf? (xs : List String) (k : String) : Option Nat :=
  match xs with
  | [] => none
  | x :: rest => if x = k then some 0 else (jsIndexOf? rest k).map (· + 1)

/-- Lines 296–309 of `processMessage`: locate the `data` field, bounds-check,
and `JSON.parse` its value. -/
def decodeData (parse : String → Option String) (fields : List String) :
    Except String String :=
  match jsIndexOf? fields "data" with
  | none => Except.error "Invalid message format: missing data field"
  | some dataIndex =>
    if fields.length ≤ dataIndex + 1 then
      Except.error "Invalid message format: missing data field"
    else
      match parse (fields.getD (dataIndex + 1) "") with
      | none => Except.error "JSON parse error"
      | some payload => Except.ok payload

/-- `const validate = options?.validate; if (validate && !validate(payload))` —
`true` when no validator is supplied or the validator accepts. -/
def validatePasses (options : Option MsgOptions) (payload : String) : Bool :=
  match options with
  | none => true
  | some o =>
    match o.validate with
    | none => true
    | some v => v payload

/-- `getIdempotencyKey` of `MessageConsumerService`. -/
def getIdempotencyKey (stream messageId : String) (fields : List String)
    (options : Option MsgOptions) : Option String :=
  match options with
  | none => none
  | some o =>
    match o.idempotency with
    | none => none
    | some idem =>
      let keyField := idem.keyField.getD "idempotencyKey"
      let rawKey : Option String :=
        match jsIndexOf? fields keyField with
        | none => none
        | some keyIndex =>
          if keyIndex + 1 < fields.length then some (fields.getD (keyIndex + 1) "")
          else none
      let suffix :=
        match rawKey with
        | some k => if 0 < k.length then k else messageId
        | none => messageId
      some ("idempotency:" ++ stream ++ ":" ++ suffix)

/-- `options?.idempotency?.ttlSeconds ?? 86_400`. -/
def idemTtl (options : Option MsgOptions) : Nat :=
  match options with
  | none => 86400
  | some o =>
    match o.idempotency with
    | none => 86400
    | some idem => idem.ttlSeconds.getD 86400

/-- `const maxRetries = 3` in `processMessage`. -/
def maxRetries : Nat := 3

/-- `Math.pow(2, retryCount) * 1000` — the backoff before a retry. -/
def backoffDelay (retryCount : Nat) : Nat :=
  2 ^ retryCount * 1000

/-- `moveToDeadLetterQueue`: append the original fields plus failure metadata
to `"<stream>:dlq"`; a failed append (`ok = false`) is caught and only
logged, so no error escapes this function. -/
def moveToDeadLetterQueue (env : Env) (stream messageId : String)
    (fields : List String) (error : String) : List Ev :=
  [Ev.dlqXadd (stream ++ ":dlq")
    (fields ++ ["originalMessageId", messageId, "error", error,
      "failedAt", toString env.now])
    env.dlqOk]

/-- The `try` block of `processMessage` (lines 295–336): decode, validate,
idempotency check, handler, ack, ledger write.  Returns the events emitted
together with `some e` when the block throws `e` (caught by the `catch`). -/
def attempt (env : Env) (stream group messageId : String)
    (fields : List String) (options : Option MsgOptions) (retryCount : Nat) :
    List Ev × Option String :=
  match decodeData env.parse fields with
  | Except.error e => ([], some e)
  | Except.ok payload =>
    if validatePasses options payload = false then
      ([], some "Invalid message payload")
    else
      match getIdempotencyKey stream messageId fields options with
      | some key =>
        if env.dupAt retryCount then
          ([Ev.ledgerCheck key, Ev.xack stream group messageId], none)
        else
          match env.handler retryCount with
          | some err => ([Ev.ledgerCheck key, Ev.handlerInvoke payload], some err)
          | none =>
            ([Ev.ledgerCheck key, Ev.handlerInvoke payload,
              Ev.xack stream group messageId,
              Ev.ledgerWrite key (idemTtl options)], none)
      | none =>
        match env.handler retryCount with
        | some err => ([Ev.handlerInvoke payload], some err)
        | none => ([Ev.handlerInvoke payload, Ev.xack stream group messageId], none)

/-- `processMessage` with explicit fuel.  The source recurses with
`retryCount + 1` and the guard `retryCount < maxRetries`, so the recursion
depth is bounded by `maxRetries + 1 - retryCount`; the fuel makes that bound
structural and is never exhausted when entered through `processMessage`. -/
def processMessageGo (env : Env) (stream group messageId : String)
    (fields : List String) (options : Option MsgOptions) :
    Nat → Nat → List Ev
  | _, 0 => []
  | retryCount, _fuel + 1 =>
    match attempt env stream group messageId fields options retryCount with
    | (tr, none) => tr
    | (tr, some err) =>
      if retryCount < maxRetries then
        tr ++ [Ev.sleep (backoffDelay retryCount)]
          ++ processMessageGo env stream group messageId fields options
              (retryCount + 1) _fuel
      else
        tr ++ moveToDeadLetterQueue env stream messageId fields err
          ++ [Ev.xack stream group messageId]

/-- `processMessage` of `MessageConsumerService`: the trace of events produced
for one delivered entry, starting at `retryCount`. -/
def processMessage (env : Env) (stream group messageId : String)
    (fields : List String) (options : Option MsgOptions)
    (retryCount : Nat) : List Ev :=
  processMessageGo env stream group messageId fields options retryCount
    (maxRetries + 1 - retryCount)

/-- Count the events satisfying `p`. -/
def countEv (p : Ev → Bool) (tr : List Ev) : Nat :=
  (tr.filter p).length

def isHandlerInvoke : Ev → Bool
  | Ev.handlerInvoke _ => true
  | _ => false

def isSleep : Ev → Bool
  | Ev.sleep _ => true
  | _ => false

def isLedgerCheck : Ev → Bool
  | Ev.ledgerCheck _ => true
  | _ => false

def isLedgerWrite : Ev → Bool
  | Ev.ledgerWrite _ _ => true
  | _ => false

/-- The `ledgerCheck` events an attempt emits, as a function of the computed
idempotency key (`none` when idempotency is not configured). -/
def ckEvs : Option String → List Ev
  | some k => [Ev.ledgerCheck k]
  | none => []

/-- The condition of line 299: `dataIndex === -1 || dataIndex + 1 >= fields.length`. -/
def missingDataField (fields : List String) : Bool :=
  match jsIndexOf? fields "data" with
  | none => true
  | some dataIndex => fields.length ≤ dataIndex + 1

/-- Environment for the concrete runs: the handler rejects at every attempt,
no idempotency record ever exists, DLQ appends succeed. -/
def envAllFail : Env :=
  { parse := some, handler := fun _ => some "boom",
    dupAt := fun _ => false, dlqOk := true, now := 1700 }

/-- Like `envAllFail` but the DLQ append itself fails. -/
def envDlqFail : Env :=
  { parse := some, handler := fun _ => some "boom",
    dupAt := fun _ => false, dlqOk := false, now := 1700 }

/-- Environment in which the handler rejects at attempt 0 and an idempotency
record appears before attempt 1 (e.g. written by a competing consumer). -/
def envDupOnRetry : Env :=
  { parse := some, handler := fun r => if r = 0 then some "boom" else none,
    dupAt := fun r => r == 1, dlqOk := true, now := 1700 }

/-- Environment in which an idempotency record already exists at delivery. -/
def envDupAtOnce : Env :=
  { parse := some, handler := fun _ => none,
    dupAt := fun _ => true, dlqOk := true, now := 1700 }

/-- Fields carrying a payload and a producer-side idempotency key, as built by
`buildMessageFields`. -/
def fieldsWithKey : List String :=
  ["data", "{}", "idempotencyKey", "k1"]

/-- Consumer options with idempotency enabled and all defaults. -/
def optsIdem : Option MsgOptions :=
  some { validate := none, idempotency := some {} }

/-- `PublishOptions` of `MessageProducerService`. -/
structure PublishOptions where
  maxLength : Option Nat := none
  idempotencyKey : Option String := none
  schemaVersion : Option Int := none
  eventType : Option String := none
  source : Option String := none

/-- `PublishBatchOptions<T>`: the idempotency key is derived per payload. -/
structure PublishBatchOptions where
  maxLength : Option Nat := none
  idempotencyKey : Option (String → String) := none
  schemaVersion : Option Int := none
  eventType : Option String := none
  source : Option String := none

/-- `buildMessageFields`: `['data', JSON.stringify(data), 'timestamp',
Date.now().toString()]` plus the optional tagged fields.  The `if (...)`
guards on `idempotencyKey`, `eventType` and `source` are JS truthiness
checks, so the empty string is skipped; `schemaVersion` is compared against
`undefined`, so `0` is kept. -/
def buildMessageFields (stringify : String → String) (nowStr : String)
    (data : String) (options : PublishOptions) : List String :=
  ["data", stringify data, "timestamp", nowStr]
    ++ (match options.idempotencyKey with
        | some k => if 0 < k.length then ["idempotencyKey", k] else []
        | none => [])
    ++ (match options.schemaVersion with
        | some v => ["schemaVersion", toString v]
        | none => [])
    ++ (match options.eventType with
        | some t => if 0 < t.length then ["eventType", t] else []
        | none => [])
    ++ (match options.source with
        | some s => if 0 < s.length then ["source", s] else []
        | none => [])

/-- One `pipeline.xadd(stream, 'MAXLEN', '~', maxLength, '*', ...fields)`. -/
structure XaddCmd where
  stream : String
  maxLength : Nat
  fields : List String
  deriving DecidableEq

/-- Producer-side environment: `stringify` models `JSON.stringify`, `now`
models `Date.now()`, `appendResult i` is the outcome the log service reports
for the `i`-th pipelined append, and `execNull` models `pipeline.exec()`
returning `null`. -/
structure ProdEnv where
  stringify : String → String
  now : Nat
  appendResult : Nat → Except String String
  execNull : Bool

/-- The pipelined `xadd` commands `publishBatch` queues: one per payload, in
submission order. -/
def batchCmds (env : ProdEnv) (stream : String) (messages : List String)
    (options : PublishBatchOptions) : List XaddCmd :=
  messages.map (fun data =>
    { stream := stream
      maxLength := options.maxLength.getD 10000
      fields := buildMessageFields env.stringify (toString env.now) data
        { maxLength := none
          idempotencyKey := options.idempotencyKey.map (fun f => f data)
          schemaVersion := options.schemaVersion
          eventType := options.eventType
          source := options.source } })

/-- `results.map((result) => { if (result[0]) throw result[0]; return
result[1] })`: the first failed command in submission order aborts the whole
call. -/
def extractIds : List (Except String String) → Except String (List String)
  | [] => Except.ok []
  | Except.error e :: _ => Except.error e
  | Except.ok id :: rest => (extractIds rest).map (fun ids => id :: ids)

/-- `publishBatch` of `MessageProducerService`: queue one `xadd` per payload,
execute the pipeline, and map the results to entry ids, throwing on the
first per-command error (or on a `null` `exec` result). -/
def publishBatch (env : ProdEnv) (stream : String) (messages : List String)
    (options : PublishBatchOptions) : Except String (List String) :=
  let cmds := batchCmds env stream messages options
  if env.execNull then Except.error "Pipeline execution failed"
  else extractIds ((List.range cmds.length).map env.appendResult)

/-- The in-process `consumers` map of `MessageConsumerService` — a JS `Map`
from consumer key to liveness flag, embedded as an association list with
unique keys. -/
abbrev Registry := List (String × Bool)

/-- `consumers.get(key)` (`none` models `undefined`). -/
def regGet (r : Registry) (k : String) : Option Bool :=
  (r.find? (fun p => p.1 == k)).map (fun p => p.2)

/-- `consumers.set(key, v)`: replace the entry if the key is present,
otherwise append one. -/
def regSet (r : Registry) (k : String) (v : Bool) : Registry :=
  if r.any (fun p => p.1 == k) then
    r.map (fun p => if p.1 == k then (k, v) else p)
  else r ++ [(k, v)]

/-- `consumers.delete(key)`: remove the key's entry. -/
def regDelete (r : Registry) (k : String) : Registry :=
  r.filter (fun p => !(p.1 == k))

/-- Line 106: `` `${stream}:${consumerGroup}:${consumer}` ``. -/
def consumerKeyOf (stream group consumer : String) : String :=
  stream ++ ":" ++ group ++ ":" ++ consumer

/-- The guard of the `while` loop in `consumeMessages`:
`this.consumers.get(consumerKey) && !this.isShuttingDown` (an absent key is
falsy). -/
def loopShouldContinue (consumers : Registry) (isShuttingDown : Bool)
    (key : String) : Bool :=
  ((regGet consumers key).getD false) && !isShuttingDown

/-- Does `hay` start with `needle`? -/
def startsWithList (needle hay : List Char) : Bool :=
  match needle, hay with
  | [], _ => true
  | _ :: _, [] => false
  | a :: as, b :: bs => a == b && startsWithList as bs

/-- Does `needle` occur contiguously inside `hay`? -/
def infixOfList (needle : List Char) : List Char → Bool
  | [] => needle.isEmpty
  | c :: rest => startsWithList needle (c :: rest) || infixOfList needle rest

/-- JS `String.prototype.includes`. -/
def includesStr (s sub : String) : Bool :=
  infixOfList sub.toList s.toList

/-- What `subscribe` produces when it does not throw: the updated consumer
registry and the key of the delivery loop it starts. -/
structure SubscribeOutcome where
  consumers : Registry
  loopKey : String
  deriving DecidableEq

/-- Lines 89–115 of `subscribe`: try to create the consumer group; a
creation error whose message contains `BUSYGROUP` is swallowed, any other
error is re-thrown before the consumer is registered and before the delivery
loop starts.  `groupCreate` is the log service's response to
`xgroup('CREATE', ...)`. -/
def subscribeModel (groupCreate : Except String Unit) (consumers : Registry)
    (stream group consumer : String) : Except String SubscribeOutcome :=
  let key := consumerKeyOf stream group consumer
  match groupCreate with
  | Except.ok _ => Except.ok ⟨regSet consumers key true, key⟩
  | Except.error e =>
    if includesStr e "BUSYGROUP" then Except.ok ⟨regSet consumers key true, key⟩
    else Except.error e

/-- Environment of one delivery-loop iteration: the ids reported by
`xpending`, the fields `xclaim` returns for each (empty array = `none`), the
batch `xreadgroup` returns, and a per-message-id `Env` for processing. -/
structure LoopEnv where
  msgEnv : String → Env
  pending : List String
  claimResult : String → Option (List String)
  newMessages : List (String × List String)

/-- `processPendingMessages`: scan the pending list, claim each entry and,
when the claim returns fields, process it. -/
def processPendingMessages (lenv : LoopEnv) (stream group : String)
    (options : Option MsgOptions) : List Ev :=
  Ev.xpending ::
    lenv.pending.flatMap (fun messageId =>
      Ev.xclaim messageId ::
        match lenv.claimResult messageId with
        | some fields =>
          processMessage (lenv.msgEnv messageId) stream group messageId fields
            options 0
        | none => [])

/-- `readAndProcessNewMessages`: one blocking `xreadgroup`, then process the
returned entries in order. -/
def readAndProcessNewMessages (lenv : LoopEnv) (stream group : String)
    (options : Option MsgOptions) : List Ev :=
  Ev.xreadgroup ::
    lenv.newMessages.flatMap (fun m =>
      processMessage (lenv.msgEnv m.1) stream group m.1 m.2 options 0)

/-- One iteration of the `while` body of `consumeMessages`: pending entries
first, then new entries. -/
def consumeIteration (lenv : LoopEnv) (stream group : String)
    (options : Option MsgOptions) : List Ev :=
  processPendingMessages lenv stream group options ++
    readAndProcessNewMessages lenv stream group options

/-- The loop-level Redis commands (`xpending`/`xclaim`/`xreadgroup`), as
opposed to the per-entry processing events. -/
def isLoopCmd : Ev → Bool
  | Ev.xpending => true
  | Ev.xclaim _ => true
  | Ev.xreadgroup => true
  | _ => false

/-- Batch environment whose second append fails. -/
def envBatchFail : ProdEnv :=
  { stringify := id, now := 1700
    appendResult := fun i =>
      if i == 1 then
        Except.error "OOM command not allowed when used memory exceeds maxmemory"
      else Except.ok ("1700-" ++ toString i)
    execNull := false }

/-- Environment whose handler resolves at once. -/
def envOk : Env :=
  { parse := some, handler := fun _ => none, dupAt := fun _ => false,
    dlqOk := true, now := 1700 }

/-- One claimed pending entry and one newly-read entry. -/
def lenvW : LoopEnv :=
  { msgEnv := fun _ => envOk
    pending := ["1-0"]
    claimResult := fun _ => some ["data", "{}"]
    newMessages := [("2-0", ["data", "{}"])] }

example :
    processMessage
      { parse := some, handler := fun _ => some "boom",
        dupAt := fun _ => false, dlqOk := true, now := 5 }
      "tasks" "g" "1-0" ["data", "{}"] none 0 =
    [Ev.handlerInvoke "{}", Ev.sleep 1000,
     Ev.handlerInvoke "{}", Ev.sleep 2000,
     Ev.handlerInvoke "{}", Ev.sleep 4000,
     Ev.handlerInvoke "{}",
     Ev.dlqXadd "tasks:dlq"
       ["data", "{}", "originalMessageId", "1-0", "error", "boom", "failedAt", "5"]
       true,
     Ev.xack "tasks" "g" "1-0"] := by decide

lemma attempt_fail_eq (env : Env) (stream group messageId : String)
    (fields : List String) (options : Option MsgOptions) (retryCount : Nat)
    (payload : String) (key? : Option String) (e : String)
    (hdec : decodeData env.parse fields = Except.ok payload)
    (hval : validatePasses options payload = true)
    (hkey : getIdempotencyKey stream messageId fields options = key?)
    (hdup : env.dupAt retryCount = false)
    (hfail : env.handler retryCount = some e) :
    attempt env stream group messageId fields options retryCount =
      (ckEvs key? ++ [Ev.handlerInvoke payload], some e) := by
  cases key? <;>
    simp [attempt, hdec, hval, hkey, hdup, hfail, ckEvs]

/-- Full trace of a run in which decoding and validation succeed, the entry is
never seen as a duplicate, and the handler rejects at every attempt `r` with
message `f r`. -/
lemma processMessage_allFail (env : Env) (stream group messageId payload : String)
    (fields : List String) (options : Option MsgOptions)
    (key? : Option String) (f : Nat → String)
    (hdec : decodeData env.parse fields = Except.ok payload)
    (hval : validatePasses options payload = true)
    (hkey : getIdempotencyKey stream messageId fields options = key?)
    (hdup : ∀ r, env.dupAt r = false)
    (hfail : ∀ r, env.handler r = some (f r)) :
    processMessage env stream group messageId fields options 0 =
      ckEvs key? ++ [Ev.handlerInvoke payload, Ev.sleep 1000] ++
      ckEvs key? ++ [Ev.handlerInvoke payload, Ev.sleep 2000] ++
      ckEvs key? ++ [Ev.handlerInvoke payload, Ev.sleep 4000] ++
      ckEvs key? ++ [Ev.handlerInvoke payload,
        Ev.dlqXadd (stream ++ ":dlq")
          (fields ++ ["originalMessageId", messageId, "error", f 3,
            "failedAt", toString env.now]) env.dlqOk,
        Ev.xack stream group messageId] := by
  have haux : ∀ r, attempt env stream group messageId fields options r =
      (ckEvs key? ++ [Ev.handlerInvoke payload], some (f r)) :=
    fun r => attempt_fail_eq env stream group messageId fields options r
      payload key? (f r) hdec hval hkey (hdup r) (hfail r)
  simp [processMessage, processMessageGo, haux, maxRetries, backoffDelay,
    moveToDeadLetterQueue]

lemma getIdempotencyKey_shape (stream messageId key : String)
    (fields : List String) (options : Option MsgOptions)
    (hkey : getIdempotencyKey stream messageId fields options = some key) :
    ∃ suffix, key = "idempotency:" ++ stream ++ ":" ++ suffix := by
  match options with
  | none => simp [getIdempotencyKey] at hkey
  | some o =>
    match ho : o.idempotency with
    | none => simp [getIdempotencyKey, ho] at hkey
    | some idem =>
      simp only [getIdempotencyKey, ho, Option.some.injEq] at hkey
      exact ⟨_, hkey.symm⟩

/-- C1: a delivered entry that decodes and validates, is never seen as a
duplicate, and whose handler rejects at every attempt, gets exactly
`1 + maxRetries = 4` handler invocations; then a dead-letter entry whose
`error` field is the final failure message is appended to `"<stream>:dlq"`,
and the original entry is acknowledged. -/
theorem always_failing_handler_invoked_four_times_then_dead_lettered
    (env : Env) (stream group messageId payload : String)
    (fields : List String) (options : Option MsgOptions)
    (key? : Option String) (f : Nat → String)
    (hdec : decodeData env.parse fields = Except.ok payload)
    (hval : validatePasses options payload = true)
    (hkey : getIdempotencyKey stream messageId fields options = key?)
    (hdup : ∀ r, env.dupAt r = false)
    (hfail : ∀ r, env.handler r = some (f r))
    (hdlq : env.dlqOk = true) :
    countEv isHandlerInvoke
        (processMessage env stream group messageId fields options 0) =
      1 + maxRetries ∧
    ∃ p, processMessage env stream group messageId fields options 0 =
      p ++ [Ev.dlqXadd (stream ++ ":dlq")
          (fields ++ ["originalMessageId", messageId, "error", f maxRetries,
            "failedAt", toString env.now]) true,
        Ev.xack stream group messageId] := by
  rw [processMessage_allFail env stream group messageId payload fields options
    key? f hdec hval hkey hdup hfail, hdlq]
  constructor
  · cases key? <;>
      simp [countEv, ckEvs, isHandlerInvoke, maxRetries]
  · refine ⟨ckEvs key? ++ [Ev.handlerInvoke payload, Ev.sleep 1000] ++
      ckEvs key? ++ [Ev.handlerInvoke payload, Ev.sleep 2000] ++
      ckEvs key? ++ [Ev.handlerInvoke payload, Ev.sleep 4000] ++
      ckEvs key? ++ [Ev.handlerInvoke payload], ?_⟩
    simp [maxRetries]

theorem always_failing_handler_witness :
    countEv isHandlerInvoke
        (processMessage envAllFail "tasks" "g" "1-0" ["data", "{}"] none 0) =
      1 + maxRetries ∧
    ∃ p, processMessage envAllFail "tasks" "g" "1-0" ["data", "{}"] none 0 =
      p ++ [Ev.dlqXadd ("tasks" ++ ":dlq")
          (["data", "{}"] ++ ["originalMessageId", "1-0", "error", "boom",
            "failedAt", toString envAllFail.now]) true,
        Ev.xack "tasks" "g" "1-0"] :=
  always_failing_handler_invoked_four_times_then_dead_lettered
    envAllFail "tasks" "g" "1-0" "{}" ["data", "{}"] none none
    (fun _ => "boom") rfl rfl rfl (fun _ => rfl) (fun _ => rfl) rfl

/-- C8: in an always-failing run the sleeps are exactly
`backoffDelay 0, backoffDelay 1, backoffDelay 2` = 1000, 2000, 4000 ms, and
`backoffDelay` (the code's `Math.pow(2, retryCount) * 1000`) doubles at every
step, in particular for every `n ≤ maxRetries - 2`. -/
theorem backoff_delays_double
    (env : Env) (stream group messageId payload : String)
    (fields : List String) (options : Option MsgOptions)
    (key? : Option String) (f : Nat → String)
    (hdec : decodeData env.parse fields = Except.ok payload)
    (hval : validatePasses options payload = true)
    (hkey : getIdempotencyKey stream messageId fields options = key?)
    (hdup : ∀ r, env.dupAt r = false)
    (hfail : ∀ r, env.handler r = some (f r)) :
    (processMessage env stream group messageId fields options 0).filter isSleep =
      [Ev.sleep (backoffDelay 0), Ev.sleep (backoffDelay 1),
       Ev.sleep (backoffDelay 2)] ∧
    backoffDelay 0 = 1000 ∧
    ∀ n, backoffDelay (n + 1) = 2 * backoffDelay n := by
  refine ⟨?_, rfl, fun n => by rw [backoffDelay, backoffDelay, pow_succ]; ring⟩
  rw [processMessage_allFail env stream group messageId payload fields options
    key? f hdec hval hkey hdup hfail]
  cases key? <;> simp [isSleep, ckEvs, backoffDelay]

theorem backoff_delays_double_witness :
    (processMessage envAllFail "tasks" "g" "1-0" ["data", "{}"] none 0).filter
        isSleep =
      [Ev.sleep (backoffDelay 0), Ev.sleep (backoffDelay 1),
       Ev.sleep (backoffDelay 2)] ∧
    backoffDelay 0 = 1000 ∧
    ∀ n, backoffDelay (n + 1) = 2 * backoffDelay n :=
  backoff_delays_double envAllFail "tasks" "g" "1-0" "{}" ["data", "{}"] none
    none (fun _ => "boom") rfl rfl rfl (fun _ => rfl) (fun _ => rfl)

/-- C2: with idempotency configured and a ledger record already present under
the computed key, `processMessage` checks the ledger, acknowledges the entry
and returns: the handler is not invoked, no retry is consumed (no sleep), and
the ledger is not written.  The key has the documented
`"idempotency:<stream>:<suffix>"` shape. -/
theorem duplicate_delivery_acked_without_handler
    (env : Env) (stream group messageId payload key : String)
    (fields : List String) (options : Option MsgOptions)
    (hdec : decodeData env.parse fields = Except.ok payload)
    (hval : validatePasses options payload = true)
    (hkey : getIdempotencyKey stream messageId fields options = some key)
    (hdup0 : env.dupAt 0 = true) :
    processMessage env stream group messageId fields options 0 =
      [Ev.ledgerCheck key, Ev.xack stream group messageId] ∧
    countEv isHandlerInvoke
        (processMessage env stream group messageId fields options 0) = 0 ∧
    countEv isSleep
        (processMessage env stream group messageId fields options 0) = 0 ∧
    countEv isLedgerWrite
        (processMessage env stream group messageId fields options 0) = 0 ∧
    ∃ suffix, key = "idempotency:" ++ stream ++ ":" ++ suffix := by
  have htr : processMessage env stream group messageId fields options 0 =
      [Ev.ledgerCheck key, Ev.xack stream group messageId] := by
    simp [processMessage, processMessageGo, attempt, hdec, hval, hkey, hdup0,
      maxRetries]
  refine ⟨htr, ?_, ?_, ?_,
    getIdempotencyKey_shape stream messageId key fields options hkey⟩ <;>
    rw [htr] <;>
    simp [countEv, isHandlerInvoke, isSleep, isLedgerWrite]

theorem duplicate_delivery_acked_witness :
    processMessage envDupAtOnce "tasks" "g" "1-0" fieldsWithKey optsIdem 0 =
      [Ev.ledgerCheck "idempotency:tasks:k1", Ev.xack "tasks" "g" "1-0"] ∧
    countEv isHandlerInvoke
        (processMessage envDupAtOnce "tasks" "g" "1-0" fieldsWithKey optsIdem 0) = 0 ∧
    countEv isSleep
        (processMessage envDupAtOnce "tasks" "g" "1-0" fieldsWithKey optsIdem 0) = 0 ∧
    countEv isLedgerWrite
        (processMessage envDupAtOnce "tasks" "g" "1-0" fieldsWithKey optsIdem 0) = 0 ∧
    ∃ suffix, "idempotency:tasks:k1" = "idempotency:" ++ "tasks" ++ ":" ++ suffix :=
  duplicate_delivery_acked_without_handler envDupAtOnce "tasks" "g" "1-0" "{}"
    "idempotency:tasks:k1" fieldsWithKey optsIdem rfl rfl rfl rfl

/-- C3: once the retry budget is exhausted, the original entry is acknowledged
whether or not the DLQ append succeeds: `env.dlqOk` is arbitrary here, the
failed append is only recorded (caught and logged in the source), and the
`xack` is the final event of the run. -/
theorem dlq_outcome_never_blocks_ack
    (env : Env) (stream group messageId payload : String)
    (fields : List String) (options : Option MsgOptions)
    (key? : Option String) (f : Nat → String)
    (hdec : decodeData env.parse fields = Except.ok payload)
    (hval : validatePasses options payload = true)
    (hkey : getIdempotencyKey stream messageId fields options = key?)
    (hdup : ∀ r, env.dupAt r = false)
    (hfail : ∀ r, env.handler r = some (f r)) :
    ∃ p, processMessage env stream group messageId fields options 0 =
      p ++ [Ev.dlqXadd (stream ++ ":dlq")
          (fields ++ ["originalMessageId", messageId, "error", f maxRetries,
            "failedAt", toString env.now]) env.dlqOk,
        Ev.xack stream group messageId] := by
  rw [processMessage_allFail env stream group messageId payload fields options
    key? f hdec hval hkey hdup hfail]
  refine ⟨ckEvs key? ++ [Ev.handlerInvoke payload, Ev.sleep 1000] ++
    ckEvs key? ++ [Ev.handlerInvoke payload, Ev.sleep 2000] ++
    ckEvs key? ++ [Ev.handlerInvoke payload, Ev.sleep 4000] ++
    ckEvs key? ++ [Ev.handlerInvoke payload], ?_⟩
  simp [maxRetries]

theorem dlq_outcome_never_blocks_ack_witness :
    ∃ p, processMessage envDlqFail "tasks" "g" "1-0" ["data", "{}"] none 0 =
      p ++ [Ev.dlqXadd ("tasks" ++ ":dlq")
          (["data", "{}"] ++ ["originalMessageId", "1-0", "error", "boom",
            "failedAt", toString envDlqFail.now]) envDlqFail.dlqOk,
        Ev.xack "tasks" "g" "1-0"] :=
  dlq_outcome_never_blocks_ack envDlqFail "tasks" "g" "1-0" "{}" ["data", "{}"]
    none none (fun _ => "boom") rfl rfl rfl (fun _ => rfl) (fun _ => rfl)

lemma decodeData_of_missing (parse : String → Option String)
    (fields : List String) (h : missingDataField fields = true) :
    decodeData parse fields =
      Except.error "Invalid message format: missing data field" := by
  unfold decodeData missingDataField at *
  match hidx : jsIndexOf? fields "data" with
  | none => simp
  | some dataIndex =>
    rw [hidx] at h
    simp only [decide_eq_true_eq] at h
    simp [h]

lemma attempt_missing_data (env : Env) (stream group messageId : String)
    (fields : List String) (options : Option MsgOptions) (retryCount : Nat)
    (h : missingDataField fields = true) :
    attempt env stream group messageId fields options retryCount =
      ([], some "Invalid message format: missing data field") := by
  simp [attempt, decodeData_of_missing env.parse fields h]

/-- C7: an entry with no `data` field (absent, or in last position with no
value) never reaches the handler; the decode failure is routed through the
same retry counter — three backoff sleeps are consumed — and the entry is
then dead-lettered and acknowledged. -/
theorem missing_data_field_dead_lettered_without_handler
    (env : Env) (stream group messageId : String)
    (fields : List String) (options : Option MsgOptions)
    (h : missingDataField fields = true) :
    countEv isHandlerInvoke
        (processMessage env stream group messageId fields options 0) = 0 ∧
    processMessage env stream group messageId fields options 0 =
      [Ev.sleep (backoffDelay 0), Ev.sleep (backoffDelay 1),
       Ev.sleep (backoffDelay 2),
       Ev.dlqXadd (stream ++ ":dlq")
         (fields ++ ["originalMessageId", messageId, "error",
           "Invalid message format: missing data field",
           "failedAt", toString env.now]) env.dlqOk,
       Ev.xack stream group messageId] := by
  have haux : ∀ r, attempt env stream group messageId fields options r =
      ([], some "Invalid message format: missing data field") :=
    fun r => attempt_missing_data env stream group messageId fields options r h
  have htr : processMessage env stream group messageId fields options 0 =
      [Ev.sleep (backoffDelay 0), Ev.sleep (backoffDelay 1),
       Ev.sleep (backoffDelay 2),
       Ev.dlqXadd (stream ++ ":dlq")
         (fields ++ ["originalMessageId", messageId, "error",
           "Invalid message format: missing data field",
           "failedAt", toString env.now]) env.dlqOk,
       Ev.xack stream group messageId] := by
    simp [processMessage, processMessageGo, haux, maxRetries,
      moveToDeadLetterQueue, backoffDelay]
  refine ⟨?_, htr⟩
  rw [htr]
  simp [countEv, isHandlerInvoke]

theorem missing_data_field_witness :
    countEv isHandlerInvoke
        (processMessage envAllFail "tasks" "g" "1-0" ["timestamp", "5", "data"]
          none 0) = 0 ∧
    processMessage envAllFail "tasks" "g" "1-0" ["timestamp", "5", "data"] none 0 =
      [Ev.sleep (backoffDelay 0), Ev.sleep (backoffDelay 1),
       Ev.sleep (backoffDelay 2),
       Ev.dlqXadd ("tasks" ++ ":dlq")
         (["timestamp", "5", "data"] ++ ["originalMessageId", "1-0", "error",
           "Invalid message format: missing data field",
           "failedAt", toString envAllFail.now]) envAllFail.dlqOk,
       Ev.xack "tasks" "g" "1-0"] :=
  missing_data_field_dead_lettered_without_handler envAllFail "tasks" "g" "1-0"
    ["timestamp", "5", "data"] none (by decide)

/-- C4 fails on the code: `processMessage` retries by re-invoking itself from
the top, so attempt 1 re-checks the idempotency ledger.  Concretely: handler
rejects at attempt 0, a ledger record appears before attempt 1, and the run
shows two `ledgerCheck` events with the retry acknowledged as a duplicate —
under the claim the ledger would be consulted exactly once per delivery. -/
theorem retry_rechecks_ledger_counterexample :
    countEv isLedgerCheck
        (processMessage envDupOnRetry "tasks" "g" "1-0" fieldsWithKey optsIdem 0)
      = 2 ∧
    countEv isHandlerInvoke
        (processMessage envDupOnRetry "tasks" "g" "1-0" fieldsWithKey optsIdem 0)
      = 1 ∧
    countEv isSleep
        (processMessage envDupOnRetry "tasks" "g" "1-0" fieldsWithKey optsIdem 0)
      = 1 ∧
    processMessage envDupOnRetry "tasks" "g" "1-0" fieldsWithKey optsIdem 0 =
      [Ev.ledgerCheck "idempotency:tasks:k1", Ev.handlerInvoke "{}",
       Ev.sleep 1000, Ev.ledgerCheck "idempotency:tasks:k1",
       Ev.xack "tasks" "g" "1-0"] := by
  decide

/-- C4 (amended): a retry re-enters `processMessage` from the top — the entry
is re-decoded, re-validated and the idempotency ledger re-checked on every
retry attempt.  In particular, when the handler rejects at attempt 0 and a
ledger record exists by attempt 1, the retry performs a second ledger check
and is acknowledged as a duplicate without invoking the handler again. -/
theorem retry_reenters_pipeline_and_rechecks_ledger
    (env : Env) (stream group messageId payload key e : String)
    (fields : List String) (options : Option MsgOptions)
    (hdec : decodeData env.parse fields = Except.ok payload)
    (hval : validatePasses options payload = true)
    (hkey : getIdempotencyKey stream messageId fields options = some key)
    (hdup0 : env.dupAt 0 = false)
    (hfail0 : env.handler 0 = some e)
    (hdup1 : env.dupAt 1 = true) :
    processMessage env stream group messageId fields options 0 =
      [Ev.ledgerCheck key, Ev.handlerInvoke payload,
       Ev.sleep (backoffDelay 0), Ev.ledgerCheck key,
       Ev.xack stream group messageId] := by
  simp [processMessage, processMessageGo, attempt, hdec, hval, hkey, hdup0,
    hfail0, hdup1, maxRetries]

theorem retry_reenters_pipeline_witness :
    processMessage envDupOnRetry "tasks" "g" "1-0" fieldsWithKey optsIdem 0 =
      [Ev.ledgerCheck "idempotency:tasks:k1", Ev.handlerInvoke "{}",
       Ev.sleep (backoffDelay 0), Ev.ledgerCheck "idempotency:tasks:k1",
       Ev.xack "tasks" "g" "1-0"] :=
  retry_reenters_pipeline_and_rechecks_ledger envDupOnRetry "tasks" "g" "1-0"
    "{}" "idempotency:tasks:k1" "boom" fieldsWithKey optsIdem rfl rfl rfl rfl
    rfl rfl

/-- C6: during subscribe, a group-creation error containing `BUSYGROUP` is
swallowed and subscription proceeds (the consumer is registered and its
delivery loop started); any other creation error is re-thrown, so no
consumer is registered and no loop starts (the error result carries no
`SubscribeOutcome`).  Successful creation proceeds identically. -/
theorem subscribe_swallows_busygroup_only
    (consumers : Registry) (stream group consumer e : String) :
    (includesStr e "BUSYGROUP" = true →
      subscribeModel (Except.error e) consumers stream group consumer =
        Except.ok ⟨regSet consumers (consumerKeyOf stream group consumer) true,
          consumerKeyOf stream group consumer⟩) ∧
    (includesStr e "BUSYGROUP" = false →
      subscribeModel (Except.error e) consumers stream group consumer =
        Except.error e) ∧
    subscribeModel (Except.ok ()) consumers stream group consumer =
      Except.ok ⟨regSet consumers (consumerKeyOf stream group consumer) true,
        consumerKeyOf stream group consumer⟩ := by
  refine ⟨?_, ?_, ?_⟩
  · intro h
    simp [subscribeModel, h]
  · intro h
    simp [subscribeModel, h]
  · simp [subscribeModel]

theorem subscribe_swallows_busygroup_witness :
    subscribeModel
        (Except.error "BUSYGROUP Consumer Group name already exists") []
        "orders:created" "order-service" "c1" =
      Except.ok ⟨regSet [] (consumerKeyOf "orders:created" "order-service" "c1")
        true, consumerKeyOf "orders:created" "order-service" "c1"⟩ ∧
    subscribeModel (Except.error "ERR Connection refused") []
        "orders:created" "order-service" "c1" =
      Except.error "ERR Connection refused" :=
  ⟨(subscribe_swallows_busygroup_only [] "orders:created" "order-service" "c1"
      "BUSYGROUP Consumer Group name already exists").1 (by decide),
   (subscribe_swallows_busygroup_only [] "orders:created" "order-service" "c1"
      "ERR Connection refused").2.1 (by decide)⟩

lemma regGet_regDelete (r : Registry) (k : String) :
    regGet (regDelete r k) k = none := by
  induction r with
  | nil => rfl
  | cons p rest ih =>
    by_cases h : p.1 == k
    · simp only [regDelete, regGet, List.filter_cons, h] at ih ⊢
      exact ih
    · simp only [regDelete, regGet, List.filter_cons, h] at ih ⊢
      simp only [Bool.not_false, if_true] at ih ⊢
      rw [List.find?_cons_of_neg _ (by simp [h])]
      exact ih

lemma regSet_key_present (r : Registry) (k : String) (v : Bool) :
    (regSet r k v).any (fun p => p.1 == k) = true := by
  unfold regSet
  by_cases h : r.any (fun p => p.1 == k)
  · rw [if_pos h]
    rcases List.any_eq_true.mp h with ⟨p, hp, hk⟩
    exact List.any_eq_true.mpr ⟨(k, v), List.mem_map.mpr ⟨p, hp, by simp [hk]⟩,
      by simp⟩
  · rw [if_neg h]
    exact List.any_eq_true.mpr ⟨(k, v), by simp⟩

lemma regSet_entry_eq (r : Registry) (k : String) (v : Bool) :
    ∀ p ∈ regSet r k v, p.1 = k → p = (k, v) := by
  unfold regSet
  by_cases h : r.any (fun p => p.1 == k) <;> simp only [h]
  · intro p hp hk
    rcases List.mem_map.mp hp with ⟨q, _, hq⟩
    by_cases hqk : q.1 == k
    · simp [hqk] at hq; exact hq.symm
    · rw [if_neg hqk] at hq
      subst hq
      exact absurd (by simp [hk]) hqk
  · intro p hp hk
    rcases List.mem_append.mp hp with hmem | hmem
    · exact absurd (List.any_eq_true.mpr ⟨p, hmem, by simp [hk]⟩) h
    · simpa using hmem

lemma map_id_of_mem {α : Type} (l : List α) (f : α → α)
    (h : ∀ a ∈ l, f a = a) : l.map f = l := by
  induction l with
  | nil => rfl
  | cons a rest ih =>
    simp only [List.map_cons, h a (by simp)]
    rw [ih (fun b hb => h b (by simp [hb]))]

lemma regSet_idem (r : Registry) (k : String) (v : Bool) :
    regSet (regSet r k v) k v = regSet r k v := by
  have hpres := regSet_key_present r k v
  conv_lhs => rw [regSet]
  rw [if_pos hpres]
  apply map_id_of_mem
  intro p hp
  by_cases hk : p.1 == k
  · rw [if_pos hk]
    exact (regSet_entry_eq r k v p hp (by simpa using hk)).symm
  · rw [if_neg hk]

/-- C10: both delivery loops started by two `subscribe` calls with the same
(stream, group, consumer) triple guard on the same registry key, and a
repeated registration leaves the registry unchanged (one shared liveness
entry, no second entry).  Deleting that key — what `unsubscribe` does — makes
the `while` guard of every such loop false, whatever else the registry holds,
and so does the shutdown flag. -/
theorem unsubscribe_or_shutdown_stops_every_loop_of_triple
    (consumers : Registry) (stream group consumer : String)
    (isShuttingDown : Bool) :
    regSet (regSet consumers (consumerKeyOf stream group consumer) true)
        (consumerKeyOf stream group consumer) true =
      regSet consumers (consumerKeyOf stream group consumer) true ∧
    loopShouldContinue
        (regDelete consumers (consumerKeyOf stream group consumer))
        isShuttingDown (consumerKeyOf stream group consumer) = false ∧
    loopShouldContinue consumers true (consumerKeyOf stream group consumer) =
      false := by
  refine ⟨regSet_idem consumers (consumerKeyOf stream group consumer) true,
    ?_, ?_⟩
  · rw [loopShouldContinue,
      regGet_regDelete consumers (consumerKeyOf stream group consumer)]
    rfl
  · simp [loopShouldContinue]

lemma extractIds_spec (rs : List (Except String String)) :
    (∃ ids, extractIds rs = Except.ok ids ∧ ids.length = rs.length ∧
      ∀ i, i < rs.length →
        rs.getD i (Except.error "") = Except.ok (ids.getD i "")) ∨
    (∃ j e, j < rs.length ∧ rs.getD j (Except.error "") = Except.error e ∧
      (∀ i, i < j → ∃ v, rs.getD i (Except.error "") = Except.ok v) ∧
      extractIds rs = Except.error e) := by
  induction rs with
  | nil =>
    exact Or.inl ⟨[], rfl, rfl, fun i hi => absurd hi (by simp)⟩
  | cons r rest ih =>
    match r with
    | Except.error e =>
      refine Or.inr ⟨0, e, by simp, rfl, fun i hi => absurd hi (by simp), ?_⟩
      simp [extractIds]
    | Except.ok v =>
      rcases ih with ⟨ids, hok, hlen, hidx⟩ | ⟨j, e, hj, herr, hpre, hext⟩
      · refine Or.inl ⟨v :: ids, ?_, by simp [hlen], ?_⟩
        · simp only [extractIds, hok]
          rfl
        · intro i hi
          match i with
          | 0 => rfl
          | i + 1 =>
            simp only [List.getD_cons_succ]
            exact hidx i (by simpa using hi)
      · refine Or.inr ⟨j + 1, e, by simpa using hj, by simpa using herr, ?_, ?_⟩
        · intro i hi
          match i with
          | 0 => exact ⟨v, rfl⟩
          | i + 1 =>
            simp only [List.getD_cons_succ]
            exact hpre i (by omega)
        · simp only [extractIds, hext]
          rfl

lemma range_map_getD (n i : Nat) (f : Nat → Except String String)
    (hi : i < n) :
    ((List.range n).map f).getD i (Except.error "") = f i := by
  rw [List.getD_eq_getElem?_getD, List.getElem?_map, List.getElem?_range hi]
  rfl

/-- C5: with a non-null pipeline result, `publishBatch` either returns one
entry id per payload, where the `i`-th id is exactly the result the log
service reported for the `i`-th pipelined append (submission order), or
fails as a whole with the error of the first failed append in submission
order (every earlier append having succeeded).  No partial-success value is
ever returned. -/
theorem publishBatch_all_ids_or_first_error
    (env : ProdEnv) (stream : String) (messages : List String)
    (options : PublishBatchOptions)
    (hexec : env.execNull = false) :
    (∃ ids, publishBatch env stream messages options = Except.ok ids ∧
      ids.length = messages.length ∧
      ∀ i, i < messages.length → env.appendResult i = Except.ok (ids.getD i "")) ∨
    (∃ j e, j < messages.length ∧ env.appendResult j = Except.error e ∧
      (∀ i, i < j → ∃ v, env.appendResult i = Except.ok v) ∧
      publishBatch env stream messages options = Except.error e) := by
  have hlen : (batchCmds env stream messages options).length = messages.length := by
    simp [batchCmds]
  have hpb : publishBatch env stream messages options =
      extractIds ((List.range messages.length).map env.appendResult) := by
    rw [publishBatch, hlen, if_neg (by simp [hexec])]
  set rs := (List.range messages.length).map env.appendResult with hrs
  have hrslen : rs.length = messages.length := by simp [hrs]
  rcases extractIds_spec rs with ⟨ids, hok, hl, hidx⟩ | ⟨j, e, hj, herr, hpre, hext⟩
  · refine Or.inl ⟨ids, hpb.trans hok, hl.trans hrslen, fun i hi => ?_⟩
    have := hidx i (by omega)
    rwa [range_map_getD messages.length i env.appendResult hi] at this
  · refine Or.inr ⟨j, e, by omega, ?_, fun i hi => ?_, hpb.trans hext⟩
    · rwa [range_map_getD messages.length j env.appendResult (by omega)] at herr
    · have := hpre i hi
      rwa [range_map_getD messages.length i env.appendResult (by omega)] at this

theorem publishBatch_first_error_witness :
    (∃ ids, publishBatch envBatchFail "orders:created" ["a", "b", "c"] {} =
        Except.ok ids ∧ ids.length = 3 ∧
      ∀ i, i < 3 → envBatchFail.appendResult i = Except.ok (ids.getD i "")) ∨
    (∃ j e, j < 3 ∧ envBatchFail.appendResult j = Except.error e ∧
      (∀ i, i < j → ∃ v, envBatchFail.appendResult i = Except.ok v) ∧
      publishBatch envBatchFail "orders:created" ["a", "b", "c"] {} =
        Except.error e) :=
  publishBatch_all_ids_or_first_error envBatchFail "orders:created"
    ["a", "b", "c"] {} rfl
lemma attempt_events_not_loopCmd (env : Env) (stream group messageId : String)
    (fields : List String) (options : Option MsgOptions) (retryCount : Nat) :
    ∀ ev ∈ (attempt env stream group messageId fields options retryCount).1,
      isLoopCmd ev = false := by
  intro ev hev
  unfold attempt at hev
  repeat' split at hev
  all_goals
    simp only [List.mem_cons, List.mem_singleton, List.not_mem_nil,
      or_false] at hev
  all_goals (try casesm* _ ∨ _)
  all_goals subst_vars
  all_goals rfl

lemma processMessageGo_events_not_loopCmd (env : Env)
    (stream group messageId : String) (fields : List String)
    (options : Option MsgOptions) :
    ∀ fuel retryCount ev,
      ev ∈ processMessageGo env stream group messageId fields options
        retryCount fuel →
      isLoopCmd ev = false := by
  intro fuel
  induction fuel with
  | zero =>
    intro retryCount ev hev
    simp [processMessageGo] at hev
  | succ n ih =>
    intro retryCount ev hev
    rw [processMessageGo] at hev
    rcases hatt : attempt env stream group messageId fields options retryCount
      with ⟨tr, err⟩
    rw [hatt] at hev
    have htr : ∀ e ∈ tr, isLoopCmd e = false := by
      intro e he
      have hfst :=
        attempt_events_not_loopCmd env stream group messageId fields options
          retryCount e
      rw [hatt] at hfst
      exact hfst he
    rcases err with _ | e
    · exact htr ev hev
    · have hev' : ev ∈ (if retryCount < maxRetries then
          tr ++ [Ev.sleep (backoffDelay retryCount)]
            ++ processMessageGo env stream group messageId fields options
                (retryCount + 1) n
        else tr ++ moveToDeadLetterQueue env stream messageId fields e
          ++ [Ev.xack stream group messageId]) := hev
      by_cases hlt : retryCount < maxRetries
      · rw [if_pos hlt] at hev'
        simp only [List.mem_append, List.mem_singleton] at hev'
        rcases hev' with (h | rfl) | h
        · exact htr ev h
        · rfl
        · exact ih (retryCount + 1) ev h
      · rw [if_neg hlt] at hev'
        simp only [moveToDeadLetterQueue, List.mem_append,
          List.mem_singleton] at hev'
        rcases hev' with (h | rfl) | rfl
        · exact htr ev h
        · rfl
        · rfl

lemma processMessage_events_not_loopCmd (env : Env)
    (stream group messageId : String) (fields : List String)
    (options : Option MsgOptions) (retryCount : Nat) :
    ∀ ev ∈ processMessage env stream group messageId fields options retryCount,
      isLoopCmd ev = false := fun ev hev =>
  processMessageGo_events_not_loopCmd env stream group messageId fields options
    (maxRetries + 1 - retryCount) retryCount ev hev

lemma xreadgroup_not_in_pending (lenv : LoopEnv) (stream group : String)
    (options : Option MsgOptions) :
    Ev.xreadgroup ∉ processPendingMessages lenv stream group options := by
  unfold processPendingMessages
  intro hmem
  rcases List.mem_cons.mp hmem with h | h
  · exact absurd h (by simp)
  · rcases List.mem_flatMap.mp h with ⟨midq, _, hmem2⟩
    rcases List.mem_cons.mp hmem2 with h2 | h2
    · exact absurd h2 (by simp)
    · rcases hcl : lenv.claimResult midq with _ | flds <;> rw [hcl] at h2
      · simp at h2
      · have := processMessage_events_not_loopCmd (lenv.msgEnv midq) stream
          group midq flds options 0 Ev.xreadgroup h2
        simp [isLoopCmd] at this

lemma xclaim_not_in_new (lenv : LoopEnv) (stream group : String)
    (options : Option MsgOptions) (mid : String) :
    Ev.xclaim mid ∉ readAndProcessNewMessages lenv stream group options := by
  unfold readAndProcessNewMessages
  intro hmem
  rcases List.mem_cons.mp hmem with h | h
  · exact absurd h (by simp)
  · rcases List.mem_flatMap.mp h with ⟨m, _, hmem2⟩
    have := processMessage_events_not_loopCmd (lenv.msgEnv m.1) stream group
      m.1 m.2 options 0 (Ev.xclaim mid) hmem2
    simp [isLoopCmd] at this

/-- C9: in one iteration of the delivery loop, every `xclaim` of a pending
entry happens strictly before the `xreadgroup` that fetches the iteration's
new entries: pending reclamation completes before new-message reading
begins. -/
theorem pending_claims_precede_new_read
    (lenv : LoopEnv) (stream group : String) (options : Option MsgOptions)
    (i j : Nat) (mid : String)
    (hi : i < (consumeIteration lenv stream group options).length)
    (hj : j < (consumeIteration lenv stream group options).length)
    (hci : (consumeIteration lenv stream group options).get ⟨i, hi⟩ =
      Ev.xclaim mid)
    (hcj : (consumeIteration lenv stream group options).get ⟨j, hj⟩ =
      Ev.xreadgroup) :
    i < j := by
  have hi' : i < (processPendingMessages lenv stream group options ++
      readAndProcessNewMessages lenv stream group options).length := hi
  have hj' : j < (processPendingMessages lenv stream group options ++
      readAndProcessNewMessages lenv stream group options).length := hj
  have hjge : (processPendingMessages lenv stream group options).length ≤ j := by
    by_contra hc
    push_neg at hc
    have hgetj : (processPendingMessages lenv stream group options ++
        readAndProcessNewMessages lenv stream group options).get ⟨j, hj'⟩ =
        Ev.xreadgroup := hcj
    have hPj : (processPendingMessages lenv stream group options).get ⟨j, hc⟩ =
        Ev.xreadgroup := by
      rw [← hgetj, List.get_eq_getElem, List.get_eq_getElem]
      exact (List.getElem_append_left hc).symm
    apply xreadgroup_not_in_pending lenv stream group options
    rw [← hPj, List.get_eq_getElem]
    exact List.getElem_mem hc
  have hilt : i < (processPendingMessages lenv stream group options).length := by
    by_contra hc
    push_neg at hc
    have hsub : i - (processPendingMessages lenv stream group options).length <
        (readAndProcessNewMessages lenv stream group options).length := by
      have h2 := hi'
      rw [List.length_append] at h2
      omega
    have hgeti : (processPendingMessages lenv stream group options ++
        readAndProcessNewMessages lenv stream group options).get ⟨i, hi'⟩ =
        Ev.xclaim mid := hci
    have hNi : (readAndProcessNewMessages lenv stream group options).get
        ⟨i - (processPendingMessages lenv stream group options).length, hsub⟩ =
        Ev.xclaim mid := by
      rw [← hgeti, List.get_eq_getElem, List.get_eq_getElem]
      exact (List.getElem_append_right hc).symm
    apply xclaim_not_in_new lenv stream group options mid
    rw [← hNi, List.get_eq_getElem]
    exact List.getElem_mem hsub
  omega

example : consumeIteration lenvW "tasks" "g" none =
    [Ev.xpending, Ev.xclaim "1-0", Ev.handlerInvoke "{}",
     Ev.xack "tasks" "g" "1-0", Ev.xreadgroup, Ev.handlerInvoke "{}",
     Ev.xack "tasks" "g" "2-0"] := by decide

theorem pending_claims_precede_new_read_witness :
    (consumeIteration lenvW "tasks" "g" none).get ⟨1, by decide⟩ =
      Ev.xclaim "1-0" ∧
    (consumeIteration lenvW "tasks" "g" none).get ⟨4, by decide⟩ =
      Ev.xreadgroup ∧
    (1 : Nat) < 4 :=
  ⟨by decide, by decide,
    pending_claims_precede_new_read lenvW "tasks" "g" none 1 4 "1-0"
      (by decide) (by decide) (by decide) (by decide)⟩
